import Mathlib

/-!
Verification of the scope variable-usage model and the `mark_used_from`
builtin from `src/tools/gn/function_mark_used_from.cc`.

The builtin itself (`RunMarkUsedFrom`, `MarkUsedAllValues`,
`MarkUsedFromList`) is embedded directly from the source file.  The
`Scope` and `Value` primitives it calls (`Scope::MarkAllUsed`,
`Scope::GetValue`, `Scope::GetMutableValue`, `Value::VerifyTypeIs`) and
the expression evaluator live in files of this repository that are not
part of the given fragment; they are modelled from the specification
(sections 3, 4.1 and 6), as noted on each definition.

C++ pointer semantics are embedded by value passing: every operation
that mutates a scope in place returns the updated scope, and
`RunMarkUsedFrom` writes the mutated source scope back into the caller
binding that held it (the C++ code mutates it through the pointer
obtained from `GetMutableValue`).
-/

namespace GN

/-- Error object: a human-readable primary message plus an optional
secondary help string (spec section 6: "a propagated error object
carrying a human-readable primary message, an optional secondary help
string"); source-location attribution is not modelled. -/
structure Err where
  msg : String
  help : String
  deriving DecidableEq, Repr

mutual

/-- Modelled from the spec (section 3): tagged union over `String`,
`List<Value>`, `Scope`, "plus other variants not touched by this core"
(gn has none/boolean/integer besides these).  `Value.none` is the empty
value returned by `Value()` in the source. -/
inductive Value where
  | none : Value
  | boolean : Bool → Value
  | int : Int → Value
  | str : String → Value
  | list : List Value → Value
  | scope : Scope → Value

/-- Modelled from the spec (section 3): an ordered-by-insertion mapping
from name to binding `(name, value, used-flag)`, plus an optional
reference to exactly one parent scope.  `root` has no parent, `child`
carries its parent by value (C++ holds it by pointer; the parent chain
is acyclic by the spec, so the value embedding is faithful). -/
inductive Scope where
  | root : List (String × Value × Bool) → Scope
  | child : List (String × Value × Bool) → Scope → Scope

end

/-- The variants of the `Value` tagged union, for type checks. -/
inductive ValueType where
  | noneType | booleanType | intType | strType | listType | scopeType
  deriving DecidableEq, Repr

/-- The variant tag of a value. -/
def Value.typeOf : Value → ValueType
  | .none => .noneType
  | .boolean _ => .booleanType
  | .int _ => .intType
  | .str _ => .strType
  | .list _ => .listType
  | .scope _ => .scopeType

/-- Modelled from the spec (section 7, TypeMismatchError):
`Value::VerifyTypeIs` is not in the given fragment; it checks the
variant tag and produces a type-mismatch error on the offending value
otherwise. -/
def Value.VerifyTypeIs (v : Value) (t : ValueType) : Option Err :=
  if v.typeOf = t then Option.none
  else Option.some ⟨"This value has the wrong type.", ""⟩

/-- The bindings declared directly on a scope. -/
def Scope.bindings : Scope → List (String × Value × Bool)
  | .root bs => bs
  | .child bs _ => bs

/-- The parent scope, if any. -/
def Scope.parentOpt : Scope → Option Scope
  | .root _ => Option.none
  | .child _ p => Option.some p

/-- Look up a name among a list of direct bindings, returning its value
and used flag. -/
def lookupDirect : List (String × Value × Bool) → String → Option (Value × Bool)
  | [], _ => Option.none
  | (n, v, u) :: t, name => if n = name then Option.some (v, u) else lookupDirect t name

/-- Set the used flag of the named direct binding to true (no-op when
the name is absent). -/
def markDirect : List (String × Value × Bool) → String → List (String × Value × Bool)
  | [], _ => []
  | (n, v, u) :: t, name =>
    if n = name then (n, v, true) :: t else (n, v, u) :: markDirect t name

/-- Replace the value of the named direct binding (no-op when the name
is absent); the used flag is kept. -/
def setDirect : List (String × Value × Bool) → String → Value → List (String × Value × Bool)
  | [], _, _ => []
  | (n, v, u) :: t, name, v' =>
    if n = name then (n, v', u) :: t else (n, v, u) :: setDirect t name v'

/-- Modelled from the spec (section 4.1, MarkNameUsed, and section 3):
`Scope::GetValue(name, set_used)` performs a lexical lookup walking up
the parent chain; when found and `set_used` is true it marks that
binding used.  Returns the (possibly marked) scope and the value found,
or the unchanged scope and `none` when the name is absent from the
whole chain (a documented no-op, not an error). -/
def Scope.GetValue : Scope → String → Bool → Scope × Option Value
  | .root bs, name, set_used =>
    match lookupDirect bs name with
    | Option.some (v, _) =>
      (.root (if set_used then markDirect bs name else bs), Option.some v)
    | Option.none => (.root bs, Option.none)
  | .child bs p, name, set_used =>
    match lookupDirect bs name with
    | Option.some (v, _) =>
      (.child (if set_used then markDirect bs name else bs) p, Option.some v)
    | Option.none =>
      match Scope.GetValue p name set_used with
      | (p', r) => (.child bs p', r)

/-- Modelled from the spec (sections 6 and 3): `Scope::GetMutableValue`
with `SEARCH_NESTED` (the only mode the fragment uses) performs the
same chain lookup; the third C++ argument `counts_as_used = true` makes
the successful lookup count as a read, and per the glossary the used
flag "tracks whether a binding has ever been read", so the found
binding is marked used.  Mutability of the returned value is embedded
by `Scope.setExistingValue` below. -/
def Scope.GetMutableValue : Scope → String → Bool → Scope × Option Value
  | s, name, counts_as_used => Scope.GetValue s name counts_as_used

/-- Write-back half of the C++ mutable pointer returned by
`GetMutableValue`: replace the value of the first binding named `name`
on the chain (the one `GetMutableValue` found) with `v`, leaving its
used flag and everything else unchanged. -/
def Scope.setExistingValue : Scope → String → Value → Scope
  | .root bs, name, v =>
    match lookupDirect bs name with
    | Option.some _ => .root (setDirect bs name v)
    | Option.none => .root bs
  | .child bs p, name, v =>
    match lookupDirect bs name with
    | Option.some _ => .child (setDirect bs name v) p
    | Option.none => .child bs (Scope.setExistingValue p name v)

/-- Modelled from the spec (section 4.1, MarkAllUsed): for every
binding declared directly on this scope whose name is not in
`exclusions`, set `used = true`; the parent is never inspected or
mutated, and excluded names keep their prior flag. -/
def Scope.MarkAllUsed (s : Scope) (exclusion_set : List String) : Scope :=
  match s with
  | .root bs =>
    .root (bs.map fun b => if b.1 ∈ exclusion_set then b else (b.1, b.2.1, true))
  | .child bs p =>
    .child (bs.map fun b => if b.1 ∈ exclusion_set then b else (b.1, b.2.1, true)) p

/-- Modelled from the spec (section 6): the argument expression nodes
the evaluator hands to the builtin.  The builtin only distinguishes
identifier nodes from everything else (`args_vector[0]->AsIdentifier()`);
non-identifier nodes are represented by the value they evaluate to
(`literal`) or by the evaluation failure they produce (`failing`),
covering every behaviour of the external evaluator the core can
observe. -/
inductive ParseNode where
  | identifier : String → ParseNode
  | literal : Value → ParseNode
  | failing : Err → ParseNode

/-- Modelled from the spec (section 6): evaluate an argument expression
node in a given scope to a value, reporting evaluation failures through
the same error channel the core uses.  Reading an identifier counts as
a use (glossary: the used flag "tracks whether a binding has ever been
read"), so the scope is threaded through. -/
def ParseNode.Execute : Scope → ParseNode → Scope × Except Err Value
  | s, .identifier name =>
    match Scope.GetValue s name true with
    | (s', Option.some v) => (s', Except.ok v)
    | (s', Option.none) => (s', Except.error ⟨"Undefined identifier.", ""⟩)
  | s, .literal v => (s, Except.ok v)
  | s, .failing e => (s, Except.error e)

/-- Embedded from `MarkUsedAllValues` in
`src/tools/gn/function_mark_used_from.cc` (lines 14-18): delegate to
`source->MarkAllUsed(exclusion_set)`.  (The `function` call-node
parameter is unused by the source and dropped here.) -/
def MarkUsedAllValues (source : Scope) (exclusion_set : List String) : Scope :=
  source.MarkAllUsed exclusion_set

/-- Embedded from `MarkUsedFromList` in
`src/tools/gn/function_mark_used_from.cc` (lines 20-28): for each
element, verify it is a string (returning the type error and stopping
at the first violation), and mark the name used in `source` via
`source->GetValue(name, true)`. -/
def MarkUsedFromList : Scope → List Value → Scope × Option Err
  | source, [] => (source, Option.none)
  | source, cur :: rest =>
    match cur.VerifyTypeIs .strType with
    | Option.some e => (source, Option.some e)
    | Option.none =>
      match cur with
      | .str name => MarkUsedFromList (Scope.GetValue source name true).1 rest
      | _ => (source, Option.none)

/-- The exclusion-list extraction loop of `RunMarkUsedFrom` (lines
155-161): verify every element of the evaluated third argument is a
string, collecting the names (duplicates and order are immaterial to
membership, matching `std::set<std::string>` insertion). -/
def collectExclusions : List Value → Except Err (List String)
  | [] => Except.ok []
  | cur :: rest =>
    match cur.VerifyTypeIs .strType with
    | Option.some e => Except.error e
    | Option.none =>
      match cur with
      | .str name =>
        match collectExclusions rest with
        | Except.ok set => Except.ok (name :: set)
        | Except.error e => Except.error e
      | _ => collectExclusions rest

/-- The third-argument step of `RunMarkUsedFrom` (lines 145-162):
evaluate the exclusion-list expression, require a list, and collect its
string elements; any failure is returned on the error channel. -/
def evalExclusions (scope : Scope) (node : ParseNode) :
    Scope × Except Err (List String) :=
  match node.Execute scope with
  | (scope', Except.error e) => (scope', Except.error e)
  | (scope', Except.ok exclusion_value) =>
    match exclusion_value with
    | .list l => (scope', collectExclusions l)
    | _ => (scope', Except.error ⟨"Not a valid list of variables to exclude.",
                                  "Expecting a list of strings."⟩)

/-- The third-argument step as `RunMarkUsedFrom` runs it (lines
145-162): run `evalExclusions` when a third argument is present, and
produce the empty exclusion set when it is absent. -/
def evalExclusionsOpt (scope1 : Scope) (args_vector : List ParseNode) :
    Scope × Except Err (List String) :=
  match args_vector[2]? with
  | Option.some arg2 => evalExclusions scope1 arg2
  | Option.none => (scope1, Except.ok [])

/-- The branch of `RunMarkUsedFrom` on the evaluated second argument
(lines 170-185): wildcard marking for the string `"*"`, list marking
for a list (writing the mutated source scope back into the caller
binding in both cases, also when list marking stops with an error), and
a type-mismatch error for everything else. -/
def markStep (scope3 : Scope) (ident : String) (source : Scope)
    (exclusion_set : List String) (what_value : Value) : Scope × Except Err Value :=
  match what_value with
  | .str s =>
    if s = "*" then
      let source' := MarkUsedAllValues source exclusion_set
      (scope3.setExistingValue ident (.scope source'), Except.ok Value.none)
    else
      (scope3,
       Except.error ⟨"Not a valid list of variables to mark used.",
                     "Expecting either the string \"*\" or a list of strings."⟩)
  | .list l =>
    match MarkUsedFromList source l with
    | (source', Option.none) =>
      (scope3.setExistingValue ident (.scope source'), Except.ok Value.none)
    | (source', Option.some e) =>
      (scope3.setExistingValue ident (.scope source'), Except.error e)
  | _ =>
    (scope3,
     Except.error ⟨"Not a valid list of variables to mark used.",
                   "Expecting either the string \"*\" or a list of strings."⟩)

/-- The part of `RunMarkUsedFrom` that runs once the source scope has
been resolved (lines 145-185): the optional exclusion step, evaluation
of the second argument, and the branch on its value. -/
def runWithSource (scope1 : Scope) (ident : String) (source : Scope)
    (args_vector : List ParseNode) : Scope × Except Err Value :=
  match evalExclusionsOpt scope1 args_vector with
  | (scope2, Except.error e) => (scope2, Except.error e)
  | (scope2, Except.ok exclusion_set) =>
    match args_vector[1]? with
    | Option.none => (scope2, Except.error ⟨"Expected an argument.", ""⟩)
    | Option.some arg1 =>
      match arg1.Execute scope2 with
      | (scope3, Except.error e) => (scope3, Except.error e)
      | (scope3, Except.ok what_value) =>
        markStep scope3 ident source exclusion_set what_value

/-- Embedded from `RunMarkUsedFrom` in
`src/tools/gn/function_mark_used_from.cc` (lines 113-186).  Returns the
caller scope after the call (the C++ mutates it in place) together with
the result: `Except.ok Value.none` on success (the source returns
`Value()`), or the error set in `*err`.  The in-place mutation of the
source scope through the pointer obtained from `GetMutableValue` is
embedded by writing the updated source scope back into the binding the
identifier resolved to, including on the `MarkUsedFromList` error path
(the C++ marking has already happened in place when the error is
reported). -/
def RunMarkUsedFrom (scope : Scope) (args_vector : List ParseNode) :
    Scope × Except Err Value :=
  if args_vector.length ≠ 2 ∧ args_vector.length ≠ 3 then
    (scope, Except.error ⟨"Wrong number of arguments.",
                          "Expecting two or three arguments."⟩)
  else
    match args_vector.head? with
    | Option.none =>
      (scope, Except.error ⟨"Expected an identifier for the scope.", ""⟩)
    | Option.some arg0 =>
      match arg0 with
      | .literal _ =>
        (scope, Except.error ⟨"Expected an identifier for the scope.", ""⟩)
      | .failing _ =>
        (scope, Except.error ⟨"Expected an identifier for the scope.", ""⟩)
      | .identifier ident =>
        match Scope.GetMutableValue scope ident true with
        | (scope1, Option.none) =>
          (scope1, Except.error ⟨"Undefined identifier.", ""⟩)
        | (scope1, Option.some value) =>
          match value.VerifyTypeIs .scopeType with
          | Option.some e => (scope1, Except.error e)
          | Option.none =>
            match value with
            | .scope source => runWithSource scope1 ident source args_vector
            | _ => (scope1, Except.error ⟨"This value has the wrong type.", ""⟩)

/-- Chain lookup without side effect: the value and used flag of the
first binding named `n` found walking outward from `s`. -/
def Scope.findInChain : Scope → String → Option (Value × Bool)
  | .root bs, n => lookupDirect bs n
  | .child bs p, n =>
    match lookupDirect bs n with
    | Option.some r => Option.some r
    | Option.none => Scope.findInChain p n

/-- The value of the first binding named `n` on the chain, flag
discarded. -/
def valueInChain (s : Scope) (n : String) : Option Value :=
  (s.findInChain n).map Prod.fst

/-- The used flag of the binding named `n` declared directly on `s`. -/
def directUsed (s : Scope) (n : String) : Option Bool :=
  (lookupDirect s.bindings n).map Prod.snd

/-- The scope held by the binding named `n` on the chain of `s`, when
that binding holds a `Scope`-typed value. -/
def storedScope (s : Scope) (n : String) : Option Scope :=
  match s.findInChain n with
  | Option.some (.scope S, _) => Option.some S
  | _ => Option.none

/-- A caller scope of the shape the builtin's examples use: one binding
`i` (e.g. `invoker`) holding the source scope `S`, not yet used. -/
def mkCaller (i : String) (S : Scope) : Scope :=
  .root [(i, .scope S, false)]

mutual

/-- Used-flag monotonicity on values: a value evolves only by marking
used flags inside a held scope; every other value is unchanged. -/
inductive usedMonoV : Value → Value → Prop where
  | refl (v : Value) : usedMonoV v v
  | scope {S S' : Scope} : usedMonoS S S' → usedMonoV (.scope S) (.scope S')

/-- Used-flag monotonicity on binding lists: names are unchanged,
values evolve by `usedMonoV`, and a used flag that is true stays
true. -/
inductive usedMonoB : List (String × Value × Bool) → List (String × Value × Bool) → Prop where
  | nil : usedMonoB [] []
  | cons {n : String} {v v' : Value} {u u' : Bool}
      {t t' : List (String × Value × Bool)} :
      usedMonoV v v' → (u = true → u' = true) → usedMonoB t t' →
      usedMonoB ((n, v, u) :: t) ((n, v', u') :: t')

/-- Used-flag monotonicity on scopes: same chain shape, bindings evolve
by `usedMonoB` at every level. -/
inductive usedMonoS : Scope → Scope → Prop where
  | root {bs bs'} : usedMonoB bs bs' → usedMonoS (.root bs) (.root bs')
  | child {bs bs'} {p p' : Scope} :
      usedMonoB bs bs' → usedMonoS p p' → usedMonoS (.child bs p) (.child bs' p')

end

/-! ### Lemmas on direct-binding lists -/

theorem lookupDirect_markDirect_self (bs : List (String × Value × Bool)) (n : String) :
    lookupDirect (markDirect bs n) n = (lookupDirect bs n).map (fun r => (r.1, true)) := by
  induction bs with
  | nil => rfl
  | cons b t ih =>
    obtain ⟨m, v, u⟩ := b
    by_cases h : m = n
    · subst h; simp [markDirect, lookupDirect]
    · simp [markDirect, lookupDirect, h, ih]

theorem lookupDirect_markDirect_ne (bs : List (String × Value × Bool)) {n m : String}
    (h : m ≠ n) : lookupDirect (markDirect bs n) m = lookupDirect bs m := by
  induction bs with
  | nil => rfl
  | cons b t ih =>
    obtain ⟨k, v, u⟩ := b
    by_cases hk : k = n
    · subst hk
      have hkm : ¬(k = m) := fun e => h e.symm
      simp [markDirect, lookupDirect, hkm]
    · by_cases hm : k = m
      · subst hm
        simp [markDirect, lookupDirect, hk]
      · simp [markDirect, lookupDirect, hk, hm, ih]

theorem lookupDirect_setDirect_self (bs : List (String × Value × Bool)) (n : String)
    (v' : Value) :
    lookupDirect (setDirect bs n v') n = (lookupDirect bs n).map (fun r => (v', r.2)) := by
  induction bs with
  | nil => rfl
  | cons b t ih =>
    obtain ⟨m, v, u⟩ := b
    by_cases h : m = n
    · subst h; simp [setDirect, lookupDirect]
    · simp [setDirect, lookupDirect, h, ih]

theorem lookupDirect_setDirect_ne (bs : List (String × Value × Bool)) {n m : String}
    (v' : Value) (h : m ≠ n) :
    lookupDirect (setDirect bs n v') m = lookupDirect bs m := by
  induction bs with
  | nil => rfl
  | cons b t ih =>
    obtain ⟨k, v, u⟩ := b
    by_cases hk : k = n
    · subst hk
      have hkm : ¬(k = m) := fun e => h e.symm
      simp [setDirect, lookupDirect, hkm]
    · by_cases hm : k = m
      · subst hm
        simp [setDirect, lookupDirect, hk]
      · simp [setDirect, lookupDirect, hk, hm, ih]

/-! ### Reflexivity and transitivity of the monotonicity relations -/

theorem usedMonoB_refl : (bs : List (String × Value × Bool)) → usedMonoB bs bs
  | [] => .nil
  | (_, _, _) :: t => .cons (.refl _) id (usedMonoB_refl t)

theorem usedMonoS_refl : (S : Scope) → usedMonoS S S
  | .root bs => .root (usedMonoB_refl bs)
  | .child bs p => .child (usedMonoB_refl bs) (usedMonoS_refl p)

mutual

theorem usedMonoV_trans : {a b c : Value} → usedMonoV a b → usedMonoV b c → usedMonoV a c
  | _, _, _, .refl _, h2 => h2
  | _, _, _, .scope h1, .refl _ => .scope h1
  | _, _, _, .scope h1, .scope h2 => .scope (usedMonoS_trans h1 h2)

theorem usedMonoB_trans : {a b c : List (String × Value × Bool)} →
    usedMonoB a b → usedMonoB b c → usedMonoB a c
  | _, _, _, .nil, .nil => .nil
  | _, _, _, .cons hv hu ht, .cons hv' hu' ht' =>
    .cons (usedMonoV_trans hv hv') (fun h => hu' (hu h)) (usedMonoB_trans ht ht')

theorem usedMonoS_trans : {a b c : Scope} → usedMonoS a b → usedMonoS b c → usedMonoS a c
  | _, _, _, .root h1, .root h2 => .root (usedMonoB_trans h1 h2)
  | _, _, _, .child h1 hp1, .child h2 hp2 =>
    .child (usedMonoB_trans h1 h2) (usedMonoS_trans hp1 hp2)

end

/-! ### Values are preserved by lookups; flags only grow -/

theorem lookup_markDirect_fst (bs : List (String × Value × Bool)) (n m : String) :
    (lookupDirect (markDirect bs n) m).map Prod.fst = (lookupDirect bs m).map Prod.fst := by
  by_cases h : m = n
  · subst h
    rw [lookupDirect_markDirect_self]
    cases lookupDirect bs m <;> rfl
  · rw [lookupDirect_markDirect_ne bs h]

theorem lookup_setDirect_snd (bs : List (String × Value × Bool)) (n : String) (v' : Value)
    (m : String) :
    (lookupDirect (setDirect bs n v') m).map Prod.snd = (lookupDirect bs m).map Prod.snd := by
  by_cases h : m = n
  · subst h
    rw [lookupDirect_setDirect_self]
    cases lookupDirect bs m <;> rfl
  · rw [lookupDirect_setDirect_ne bs v' h]

theorem valueInChain_root (bs : List (String × Value × Bool)) (m : String) :
    valueInChain (.root bs) m = (lookupDirect bs m).map Prod.fst := rfl

theorem valueInChain_child (bs : List (String × Value × Bool)) (p : Scope) (m : String) :
    valueInChain (.child bs p) m =
      ((lookupDirect bs m).map Prod.fst).or (valueInChain p m) := by
  cases h : lookupDirect bs m with
  | none => simp [valueInChain, Scope.findInChain, h]
  | some r => simp [valueInChain, Scope.findInChain, h]

theorem usedMonoB_markDirect : (bs : List (String × Value × Bool)) → (n : String) →
    usedMonoB bs (markDirect bs n)
  | [], _ => .nil
  | (m, v, u) :: t, n => by
    unfold markDirect
    by_cases h : m = n
    · rw [if_pos h]
      exact .cons (.refl _) (fun _ => rfl) (usedMonoB_refl t)
    · rw [if_neg h]
      exact .cons (.refl _) id (usedMonoB_markDirect t n)

theorem usedMonoB_markAll (bs : List (String × Value × Bool)) (excl : List String) :
    usedMonoB bs (bs.map fun b => if b.1 ∈ excl then b else (b.1, b.2.1, true)) := by
  induction bs with
  | nil => exact .nil
  | cons b t ih =>
    obtain ⟨m, v, u⟩ := b
    simp only [List.map]
    by_cases h : m ∈ excl
    · rw [if_pos h]
      exact .cons (.refl _) id ih
    · rw [if_neg h]
      exact .cons (.refl _) (fun _ => rfl) ih

theorem usedMonoS_MarkAllUsed (S : Scope) (excl : List String) :
    usedMonoS S (S.MarkAllUsed excl) := by
  cases S with
  | root bs => exact .root (usedMonoB_markAll bs excl)
  | child bs p => exact .child (usedMonoB_markAll bs excl) (usedMonoS_refl p)

theorem usedMonoS_GetValue : (S : Scope) → (n : String) → (b : Bool) →
    usedMonoS S (Scope.GetValue S n b).1
  | .root bs, n, b => by
    unfold Scope.GetValue
    cases h : lookupDirect bs n with
    | none => exact usedMonoS_refl _
    | some r =>
      cases b with
      | false => exact .root (usedMonoB_refl bs)
      | true => exact .root (usedMonoB_markDirect bs n)
  | .child bs p, n, b => by
    unfold Scope.GetValue
    cases h : lookupDirect bs n with
    | none => exact .child (usedMonoB_refl bs) (usedMonoS_GetValue p n b)
    | some r =>
      cases b with
      | false => exact .child (usedMonoB_refl bs) (usedMonoS_refl p)
      | true => exact .child (usedMonoB_markDirect bs n) (usedMonoS_refl p)

theorem GetValue_snd : (S : Scope) → (n : String) → (b : Bool) →
    (Scope.GetValue S n b).2 = valueInChain S n
  | .root bs, n, b => by
    unfold Scope.GetValue
    rw [valueInChain_root]
    cases h : lookupDirect bs n <;> simp
  | .child bs p, n, b => by
    unfold Scope.GetValue
    rw [valueInChain_child]
    cases h : lookupDirect bs n with
    | none => simp [GetValue_snd p n b]
    | some r => simp

theorem valueInChain_GetValue : (S : Scope) → (n : String) → (b : Bool) → (m : String) →
    valueInChain (Scope.GetValue S n b).1 m = valueInChain S m
  | .root bs, n, b, m => by
    unfold Scope.GetValue
    cases h : lookupDirect bs n with
    | none => rfl
    | some r =>
      cases b with
      | false => rfl
      | true => simp [valueInChain_root, lookup_markDirect_fst]
  | .child bs p, n, b, m => by
    unfold Scope.GetValue
    cases h : lookupDirect bs n with
    | none =>
      simp [valueInChain_child, valueInChain_GetValue p n b m]
    | some r =>
      cases b with
      | false => rfl
      | true => simp [valueInChain_child, lookup_markDirect_fst]

theorem MarkUsedFromList_cons (source : Scope) (cur : Value) (rest : List Value) :
    MarkUsedFromList source (cur :: rest) =
      match cur.VerifyTypeIs .strType with
      | Option.some e => (source, Option.some e)
      | Option.none =>
        match cur with
        | .str name => MarkUsedFromList (Scope.GetValue source name true).1 rest
        | _ => (source, Option.none) := rfl

theorem usedMonoS_MarkUsedFromList : (l : List Value) → (S : Scope) →
    usedMonoS S (MarkUsedFromList S l).1
  | [], S => usedMonoS_refl S
  | cur :: rest, S => by
    rw [MarkUsedFromList_cons]
    cases hv : cur.VerifyTypeIs .strType with
    | some e => exact usedMonoS_refl S
    | none =>
      cases cur with
      | str name =>
        exact usedMonoS_trans (usedMonoS_GetValue S name true)
          (usedMonoS_MarkUsedFromList rest _)
      | none => exact usedMonoS_refl S
      | boolean b => exact usedMonoS_refl S
      | int k => exact usedMonoS_refl S
      | list l2 => exact usedMonoS_refl S
      | scope s2 => exact usedMonoS_refl S

theorem valueInChain_MarkUsedFromList : (l : List Value) → (S : Scope) → (m : String) →
    valueInChain (MarkUsedFromList S l).1 m = valueInChain S m
  | [], S, m => rfl
  | cur :: rest, S, m => by
    rw [MarkUsedFromList_cons]
    cases hv : cur.VerifyTypeIs .strType with
    | some e => rfl
    | none =>
      cases cur with
      | str name =>
        rw [valueInChain_MarkUsedFromList rest _ m, valueInChain_GetValue]
      | none => rfl
      | boolean b => rfl
      | int k => rfl
      | list l2 => rfl
      | scope s2 => rfl

theorem usedMonoS_Execute (s : Scope) (node : ParseNode) :
    usedMonoS s (node.Execute s).1 := by
  cases node with
  | identifier name =>
    show usedMonoS s
      (match Scope.GetValue s name true with
       | (s', Option.some v) => (s', Except.ok v)
       | (s', Option.none) => (s', Except.error (Err.mk "Undefined identifier." ""))).1
    cases h : Scope.GetValue s name true with
    | mk s' r =>
      have hmono := usedMonoS_GetValue s name true
      rw [h] at hmono
      cases r with
      | none => exact hmono
      | some v => exact hmono
  | literal v => exact usedMonoS_refl s
  | failing e => exact usedMonoS_refl s

theorem valueInChain_Execute (s : Scope) (node : ParseNode) (m : String) :
    valueInChain (node.Execute s).1 m = valueInChain s m := by
  cases node with
  | identifier name =>
    show valueInChain
      (match Scope.GetValue s name true with
       | (s', Option.some v) => (s', Except.ok v)
       | (s', Option.none) => (s', Except.error (Err.mk "Undefined identifier." ""))).1 m
      = valueInChain s m
    cases h : Scope.GetValue s name true with
    | mk s' r =>
      have hval := valueInChain_GetValue s name true m
      rw [h] at hval
      cases r with
      | none => exact hval
      | some v => exact hval
  | literal v => rfl
  | failing e => rfl

theorem usedMonoS_evalExclusions (s : Scope) (node : ParseNode) :
    usedMonoS s (evalExclusions s node).1 := by
  unfold evalExclusions
  cases h : node.Execute s with
  | mk s' r =>
    have hmono := usedMonoS_Execute s node
    rw [h] at hmono
    cases r with
    | error e => exact hmono
    | ok v => cases v <;> exact hmono

theorem valueInChain_evalExclusions (s : Scope) (node : ParseNode) (m : String) :
    valueInChain (evalExclusions s node).1 m = valueInChain s m := by
  unfold evalExclusions
  cases h : node.Execute s with
  | mk s' r =>
    have hval := valueInChain_Execute s node m
    rw [h] at hval
    cases r with
    | error e => exact hval
    | ok v => cases v <;> exact hval

theorem usedMonoB_setDirect : (bs : List (String × Value × Bool)) →
    {n : String} → {v v' : Value} → {u : Bool} →
    lookupDirect bs n = Option.some (v, u) → usedMonoV v v' →
    usedMonoB bs (setDirect bs n v')
  | [], _, _, _, _, h, _ => by simp [lookupDirect] at h
  | (m, w, uw) :: t, n, v, v', u, h, hv => by
    unfold setDirect
    by_cases hm : m = n
    · rw [if_pos hm]
      rw [lookupDirect, if_pos hm] at h
      obtain ⟨hw, _⟩ := Prod.mk.injEq .. ▸ Option.some.injEq .. ▸ h
      exact .cons (hw ▸ hv) id (usedMonoB_refl t)
    · rw [if_neg hm]
      rw [lookupDirect, if_neg hm] at h
      exact .cons (.refl _) id (usedMonoB_setDirect t h hv)

theorem usedMonoS_setExistingValue : (S : Scope) → {n : String} → {v v' : Value} →
    valueInChain S n = Option.some v → usedMonoV v v' →
    usedMonoS S (S.setExistingValue n v')
  | .root bs, n, v, v', hfind, hv => by
    rw [valueInChain_root] at hfind
    cases h : lookupDirect bs n with
    | none => rw [h] at hfind; simp at hfind
    | some r =>
      obtain ⟨w, u⟩ := r
      rw [h] at hfind
      simp at hfind
      unfold Scope.setExistingValue
      rw [h]
      exact .root (usedMonoB_setDirect bs h (hfind ▸ hv))
  | .child bs p, n, v, v', hfind, hv => by
    rw [valueInChain_child] at hfind
    cases h : lookupDirect bs n with
    | none =>
      rw [h] at hfind
      simp at hfind
      unfold Scope.setExistingValue
      rw [h]
      exact .child (usedMonoB_refl bs) (usedMonoS_setExistingValue p hfind hv)
    | some r =>
      obtain ⟨w, u⟩ := r
      rw [h] at hfind
      simp at hfind
      unfold Scope.setExistingValue
      rw [h]
      exact .child (usedMonoB_setDirect bs h (hfind ▸ hv)) (usedMonoS_refl p)

theorem usedMonoB_lookup_true : {bs bs' : List (String × Value × Bool)} → {n : String} →
    usedMonoB bs bs' → (lookupDirect bs n).map Prod.snd = Option.some true →
    (lookupDirect bs' n).map Prod.snd = Option.some true
  | _, _, n, .nil, h => by simp [lookupDirect] at h
  | _, _, n, @usedMonoB.cons m v v' u u' t t' hv hu ht, h => by
    rw [lookupDirect] at h ⊢
    by_cases hm : m = n
    · rw [if_pos hm] at h ⊢
      simp at h ⊢
      exact hu h
    · rw [if_neg hm] at h ⊢
      exact usedMonoB_lookup_true ht h

theorem directUsed_mono : {s s' : Scope} → usedMonoS s s' → {n : String} →
    directUsed s n = Option.some true → directUsed s' n = Option.some true
  | _, _, .root hb, _, h => usedMonoB_lookup_true hb h
  | _, _, .child hb _, _, h => usedMonoB_lookup_true hb h

theorem directUsed_setExistingValue (s : Scope) (n : String) (v : Value) (m : String) :
    directUsed (Scope.setExistingValue s n v) m = directUsed s m := by
  cases s with
  | root bs =>
    cases h : lookupDirect bs n with
    | none => simp [Scope.setExistingValue, h]
    | some r =>
      simp [Scope.setExistingValue, h, directUsed, Scope.bindings, lookup_setDirect_snd]
  | child bs p =>
    cases h : lookupDirect bs n with
    | none => simp [Scope.setExistingValue, h, directUsed, Scope.bindings]
    | some r =>
      simp [Scope.setExistingValue, h, directUsed, Scope.bindings, lookup_setDirect_snd]

theorem collectExclusions_cons (cur : Value) (rest : List Value) :
    collectExclusions (cur :: rest) =
      match cur.VerifyTypeIs .strType with
      | Option.some e => Except.error e
      | Option.none =>
        match cur with
        | .str name =>
          (match collectExclusions rest with
           | Except.ok set => Except.ok (name :: set)
           | Except.error e => Except.error e)
        | _ => collectExclusions rest := rfl

theorem collectExclusions_map_str : (l : List String) →
    collectExclusions (l.map Value.str) = Except.ok l
  | [] => rfl
  | n :: t => by
    simp only [List.map]
    rw [collectExclusions_cons]
    simp [Value.VerifyTypeIs, Value.typeOf, collectExclusions_map_str t]

theorem GetValue_child_notdirect {bs : List (String × Value × Bool)} {p : Scope}
    {n : String} {b : Bool} (h : lookupDirect bs n = Option.none) :
    Scope.GetValue (.child bs p) n b =
      (.child bs (Scope.GetValue p n b).1, (Scope.GetValue p n b).2) := by
  cases hp : Scope.GetValue p n b with
  | mk p' r =>
    show (match lookupDirect bs n with
          | Option.some (v, _) =>
            (Scope.child (if b then markDirect bs n else bs) p, Option.some v)
          | Option.none =>
            match Scope.GetValue p n b with
            | (p', r) => (Scope.child bs p', r)) = _
    rw [h, hp]

theorem GetValue_marks_direct {S : Scope} {n : String} {v : Value} {u : Bool}
    (h : lookupDirect S.bindings n = Option.some (v, u)) :
    lookupDirect ((Scope.GetValue S n true).1).bindings n = Option.some (v, true) := by
  cases S with
  | root bs =>
    rw [show Scope.bindings (.root bs) = bs from rfl] at h
    unfold Scope.GetValue
    rw [h]
    simp [Scope.bindings, lookupDirect_markDirect_self, h]
  | child bs p =>
    rw [show Scope.bindings (.child bs p) = bs from rfl] at h
    unfold Scope.GetValue
    rw [h]
    simp [Scope.bindings, lookupDirect_markDirect_self, h]

theorem markAll_head (m : String) (v : Value) (u : Bool) (excl : List String) :
    (if m ∈ excl then (m, v, u) else (m, v, true))
      = (m, v, if m ∈ excl then u else true) := by
  by_cases he : m ∈ excl <;> simp [he]

theorem lookupDirect_markAll (bs : List (String × Value × Bool)) (excl : List String)
    (n : String) :
    lookupDirect (bs.map fun b => if b.1 ∈ excl then b else (b.1, b.2.1, true)) n
      = (lookupDirect bs n).map (fun r => (r.1, if n ∈ excl then r.2 else true)) := by
  induction bs with
  | nil => rfl
  | cons b t ih =>
    obtain ⟨m, v, u⟩ := b
    simp only [List.map]
    rw [show (if (m, v, u).1 ∈ excl then (m, v, u) else ((m, v, u).1, (m, v, u).2.1, true))
          = (m, v, if m ∈ excl then u else true) from markAll_head m v u excl]
    by_cases hm : m = n
    · subst hm
      simp [lookupDirect]
    · simp [lookupDirect, hm, ih]

theorem MarkAllUsed_bindings (S : Scope) (excl : List String) :
    (S.MarkAllUsed excl).bindings
      = S.bindings.map fun b => if b.1 ∈ excl then b else (b.1, b.2.1, true) := by
  cases S <;> rfl

theorem MarkAllUsed_parentOpt (S : Scope) (excl : List String) :
    (S.MarkAllUsed excl).parentOpt = S.parentOpt := by
  cases S <;> rfl

theorem GetValue_notfound : {S : Scope} → {n : String} → (b : Bool) →
    S.findInChain n = Option.none → Scope.GetValue S n b = (S, Option.none)
  | .root bs, n, b, h => by
    rw [show Scope.findInChain (.root bs) n = lookupDirect bs n from rfl] at h
    unfold Scope.GetValue
    rw [h]
  | .child bs p, n, b, h => by
    have hbs : lookupDirect bs n = Option.none := by
      cases hl : lookupDirect bs n with
      | none => rfl
      | some r => rw [show Scope.findInChain (.child bs p) n
          = (match lookupDirect bs n with
             | Option.some r => Option.some r
             | Option.none => Scope.findInChain p n) from rfl, hl] at h
                  exact absurd h (by simp)
    have hp : Scope.findInChain p n = Option.none := by
      rw [show Scope.findInChain (.child bs p) n
          = (match lookupDirect bs n with
             | Option.some r => Option.some r
             | Option.none => Scope.findInChain p n) from rfl, hbs] at h
      exact h
    rw [GetValue_child_notdirect hbs, GetValue_notfound b hp]

theorem markStep_mono {scope3 : Scope} {ident : String} {source : Scope}
    (excl : List String) (what : Value)
    (hval : valueInChain scope3 ident = Option.some (.scope source)) :
    usedMonoS scope3 (markStep scope3 ident source excl what).1 := by
  cases what with
  | str s =>
    show usedMonoS scope3
      (if s = "*" then
         (scope3.setExistingValue ident (.scope (MarkUsedAllValues source excl)),
          Except.ok Value.none)
       else
         (scope3,
          Except.error (Err.mk "Not a valid list of variables to mark used."
            "Expecting either the string \"*\" or a list of strings."))).1
    by_cases hs : s = "*"
    · rw [if_pos hs]
      exact usedMonoS_setExistingValue scope3 hval
        (.scope (usedMonoS_MarkAllUsed source excl))
    · rw [if_neg hs]
      exact usedMonoS_refl scope3
  | list l =>
    show usedMonoS scope3
      (match MarkUsedFromList source l with
       | (source', Option.none) =>
         (scope3.setExistingValue ident (.scope source'), Except.ok Value.none)
       | (source', Option.some e) =>
         (scope3.setExistingValue ident (.scope source'), Except.error e)).1
    cases hl : MarkUsedFromList source l with
    | mk source' e =>
      have hsrc : usedMonoS source source' := by
        have := usedMonoS_MarkUsedFromList l source
        rw [hl] at this
        exact this
      cases e with
      | none => exact usedMonoS_setExistingValue scope3 hval (.scope hsrc)
      | some e => exact usedMonoS_setExistingValue scope3 hval (.scope hsrc)
  | none => exact usedMonoS_refl scope3
  | boolean b => exact usedMonoS_refl scope3
  | int k => exact usedMonoS_refl scope3
  | scope s2 => exact usedMonoS_refl scope3

theorem usedMonoS_evalExclusionsOpt (scope1 : Scope) (args : List ParseNode) :
    usedMonoS scope1 (evalExclusionsOpt scope1 args).1 := by
  unfold evalExclusionsOpt
  cases h : args[2]? with
  | none => exact usedMonoS_refl scope1
  | some arg2 => exact usedMonoS_evalExclusions scope1 arg2

theorem valueInChain_evalExclusionsOpt (scope1 : Scope) (args : List ParseNode)
    (m : String) :
    valueInChain (evalExclusionsOpt scope1 args).1 m = valueInChain scope1 m := by
  unfold evalExclusionsOpt
  cases h : args[2]? with
  | none => rfl
  | some arg2 => exact valueInChain_evalExclusions scope1 arg2 m

/-! ### Characterizations of full calls on a one-binding caller scope -/

theorem run_wildcard (i : String) (S : Scope) (excl : List String) :
    RunMarkUsedFrom (mkCaller i S)
      [.identifier i, .literal (.str "*"), .literal (.list (excl.map Value.str))]
      = (.root [(i, .scope (S.MarkAllUsed excl), true)], Except.ok Value.none) := by
  simp [RunMarkUsedFrom, mkCaller, Scope.GetMutableValue, Scope.GetValue, lookupDirect,
        markDirect, Value.VerifyTypeIs, Value.typeOf, runWithSource, evalExclusionsOpt,
        evalExclusions, ParseNode.Execute, collectExclusions_map_str, markStep,
        MarkUsedAllValues, Scope.setExistingValue, setDirect]

theorem run_list (i : String) (S : Scope) (l : List Value) :
    RunMarkUsedFrom (mkCaller i S) [.identifier i, .literal (.list l)]
      = (.root [(i, .scope (MarkUsedFromList S l).1, true)],
         match (MarkUsedFromList S l).2 with
         | Option.none => Except.ok Value.none
         | Option.some e => Except.error e) := by
  cases h : MarkUsedFromList S l with
  | mk S' r =>
    cases r <;>
    simp [RunMarkUsedFrom, mkCaller, Scope.GetMutableValue, Scope.GetValue, lookupDirect,
          markDirect, Value.VerifyTypeIs, Value.typeOf, runWithSource, evalExclusionsOpt,
          evalExclusions, ParseNode.Execute, h, markStep, Scope.setExistingValue, setDirect]

theorem MarkUsedFromList_prefix_bad : (pre : List String) → (S : Scope) →
    {bad : Value} → (post : List Value) → bad.typeOf ≠ .strType →
    MarkUsedFromList S (pre.map Value.str ++ bad :: post)
      = ((MarkUsedFromList S (pre.map Value.str)).1,
         Option.some ⟨"This value has the wrong type.", ""⟩)
  | [], S, bad, post, hbad => by
    simp only [List.map, List.nil_append]
    rw [MarkUsedFromList_cons]
    simp [Value.VerifyTypeIs, hbad]
    cases bad <;> simp_all [Value.typeOf, MarkUsedFromList]
  | n :: t, S, bad, post, hbad => by
    simp only [List.map, List.cons_append]
    rw [MarkUsedFromList_cons, MarkUsedFromList_cons]
    simp only [Value.VerifyTypeIs, Value.typeOf, if_pos rfl]
    exact MarkUsedFromList_prefix_bad t _ post hbad

theorem directUsed_markStep {scope3 : Scope} {m : String} (ident : String)
    (source : Scope) (excl : List String) (what : Value)
    (h : directUsed scope3 m = Option.some true) :
    directUsed (markStep scope3 ident source excl what).1 m = Option.some true := by
  cases what with
  | str s =>
    show directUsed
      (if s = "*" then
         (scope3.setExistingValue ident (.scope (MarkUsedAllValues source excl)),
          Except.ok Value.none)
       else
         (scope3,
          Except.error (Err.mk "Not a valid list of variables to mark used."
            "Expecting either the string \"*\" or a list of strings."))).1 m
      = Option.some true
    by_cases hs : s = "*"
    · rw [if_pos hs]
      rw [show ((scope3.setExistingValue ident
            (Value.scope (MarkUsedAllValues source excl)), Except.ok Value.none) :
            Scope × Except Err Value).1
          = scope3.setExistingValue ident (Value.scope (MarkUsedAllValues source excl))
        from rfl]
      rw [directUsed_setExistingValue]
      exact h
    · rw [if_neg hs]
      exact h
  | list l =>
    show directUsed
      (match MarkUsedFromList source l with
       | (source', Option.none) =>
         (scope3.setExistingValue ident (.scope source'), Except.ok Value.none)
       | (source', Option.some e) =>
         (scope3.setExistingValue ident (.scope source'), Except.error e)).1 m
      = Option.some true
    cases hl : MarkUsedFromList source l with
    | mk source' e =>
      cases e with
      | none => rw [directUsed_setExistingValue]; exact h
      | some e => rw [directUsed_setExistingValue]; exact h
  | none => exact h
  | boolean b => exact h
  | int k => exact h
  | scope s2 => exact h

theorem runWithSource_mono (c1 : Scope) (ident : String) (source : Scope)
    (args : List ParseNode)
    (hval1 : valueInChain c1 ident = Option.some (.scope source)) :
    usedMonoS c1 (runWithSource c1 ident source args).1 := by
  unfold runWithSource
  cases hE : evalExclusionsOpt c1 args with
  | mk c2 r2 =>
    have hm2 : usedMonoS c1 c2 := by
      have hmono := usedMonoS_evalExclusionsOpt c1 args
      rw [hE] at hmono
      exact hmono
    have hval2 : valueInChain c2 ident = Option.some (.scope source) := by
      have hpres := valueInChain_evalExclusionsOpt c1 args ident
      rw [hE] at hpres
      rw [hpres, hval1]
    cases r2 with
    | error e => exact hm2
    | ok excl =>
      show usedMonoS c1
        (match args[1]? with
         | Option.none => (c2, Except.error (Err.mk "Expected an argument." ""))
         | Option.some arg1 =>
           match arg1.Execute c2 with
           | (scope3, Except.error e) => (scope3, Except.error e)
           | (scope3, Except.ok what_value) =>
             markStep scope3 ident source excl what_value).1
      cases hA : args[1]? with
      | none => exact hm2
      | some arg1 =>
        show usedMonoS c1
          (match arg1.Execute c2 with
           | (scope3, Except.error e) => (scope3, Except.error e)
           | (scope3, Except.ok what_value) =>
             markStep scope3 ident source excl what_value).1
        cases hX : arg1.Execute c2 with
        | mk c3 r3 =>
          have hm3 : usedMonoS c2 c3 := by
            have hmono := usedMonoS_Execute c2 arg1
            rw [hX] at hmono
            exact hmono
          have hval3 : valueInChain c3 ident = Option.some (.scope source) := by
            have hpres := valueInChain_Execute c2 arg1 ident
            rw [hX] at hpres
            rw [hpres, hval2]
          cases r3 with
          | error e => exact usedMonoS_trans hm2 hm3
          | ok what =>
            exact usedMonoS_trans hm2
              (usedMonoS_trans hm3 (markStep_mono excl what hval3))

theorem run_usedMono (c : Scope) (args : List ParseNode) :
    usedMonoS c (RunMarkUsedFrom c args).1 := by
  unfold RunMarkUsedFrom
  split
  · exact usedMonoS_refl c
  · cases h0 : args.head? with
    | none => exact usedMonoS_refl c
    | some arg0 =>
      cases arg0 with
      | literal v => exact usedMonoS_refl c
      | failing e => exact usedMonoS_refl c
      | identifier ident =>
        show usedMonoS c
          (match Scope.GetMutableValue c ident true with
           | (scope1, Option.none) =>
             (scope1, Except.error (Err.mk "Undefined identifier." ""))
           | (scope1, Option.some value) =>
             match value.VerifyTypeIs .scopeType with
             | Option.some e => (scope1, Except.error e)
             | Option.none =>
               match value with
               | .scope source => runWithSource scope1 ident source args
               | _ =>
                 (scope1,
                  Except.error (Err.mk "This value has the wrong type." ""))).1
        cases h1 : Scope.GetMutableValue c ident true with
        | mk c1 r1 =>
          have h1g : Scope.GetValue c ident true = (c1, r1) := h1
          have hm1 : usedMonoS c c1 := by
            have hmono := usedMonoS_GetValue c ident true
            rw [h1g] at hmono
            exact hmono
          cases r1 with
          | none => exact hm1
          | some value =>
            show usedMonoS c
              (match value.VerifyTypeIs .scopeType with
               | Option.some e => (c1, Except.error e)
               | Option.none =>
                 match value with
                 | .scope source => runWithSource c1 ident source args
                 | _ =>
                   (c1,
                    Except.error (Err.mk "This value has the wrong type." ""))).1
            cases hv : value.VerifyTypeIs .scopeType with
            | some e => exact hm1
            | none =>
              show usedMonoS c
                (match value with
                 | .scope source => runWithSource c1 ident source args
                 | _ =>
                   (c1,
                    Except.error (Err.mk "This value has the wrong type." ""))).1
              have hcval : valueInChain c ident = Option.some value := by
                have hsnd := GetValue_snd c ident true
                rw [h1g] at hsnd
                exact hsnd.symm
              have hval1 : valueInChain c1 ident = Option.some value := by
                have hpres := valueInChain_GetValue c ident true ident
                rw [h1g] at hpres
                rw [hpres, hcval]
              cases value with
              | scope source =>
                show usedMonoS c (runWithSource c1 ident source args).1
                exact usedMonoS_trans hm1 (runWithSource_mono c1 ident source args hval1)
              | none => exact hm1
              | boolean b => exact hm1
              | int k => exact hm1
              | str s2 => exact hm1
              | list l => exact hm1

theorem storedScope_single (i : String) (S : Scope) (u : Bool) :
    storedScope (.root [(i, .scope S, u)]) i = Option.some S := by
  simp [storedScope, Scope.findInChain, lookupDirect]

theorem directUsed_runWithSource {c1 : Scope} {m : String} (ident : String)
    (source : Scope) (args : List ParseNode)
    (h : directUsed c1 m = Option.some true) :
    directUsed (runWithSource c1 ident source args).1 m = Option.some true := by
  unfold runWithSource
  cases hE : evalExclusionsOpt c1 args with
  | mk c2 r2 =>
    have h2 : directUsed c2 m = Option.some true := by
      have hmono := usedMonoS_evalExclusionsOpt c1 args
      rw [hE] at hmono
      exact directUsed_mono hmono h
    cases r2 with
    | error e => exact h2
    | ok excl =>
      show directUsed
        (match args[1]? with
         | Option.none => (c2, Except.error (Err.mk "Expected an argument." ""))
         | Option.some arg1 =>
           match arg1.Execute c2 with
           | (scope3, Except.error e) => (scope3, Except.error e)
           | (scope3, Except.ok what_value) =>
             markStep scope3 ident source excl what_value).1 m = Option.some true
      cases hA : args[1]? with
      | none => exact h2
      | some arg1 =>
        show directUsed
          (match arg1.Execute c2 with
           | (scope3, Except.error e) => (scope3, Except.error e)
           | (scope3, Except.ok what_value) =>
             markStep scope3 ident source excl what_value).1 m = Option.some true
        cases hX : arg1.Execute c2 with
        | mk c3 r3 =>
          have h3 : directUsed c3 m = Option.some true := by
            have hmono := usedMonoS_Execute c2 arg1
            rw [hX] at hmono
            exact directUsed_mono hmono h2
          cases r3 with
          | error e => exact h3
          | ok what => exact directUsed_markStep ident source excl what h3

theorem run_front (i : String) (S : Scope) (args : List ParseNode)
    (hhead : args.head? = Option.some (.identifier i))
    (hlen : args.length = 2 ∨ args.length = 3) :
    RunMarkUsedFrom (mkCaller i S) args
      = runWithSource (.root [(i, .scope S, true)]) i S args := by
  unfold RunMarkUsedFrom
  have harity : ¬(args.length ≠ 2 ∧ args.length ≠ 3) := by
    rcases hlen with h | h <;> simp [h]
  rw [if_neg harity, hhead]
  show (match Scope.GetMutableValue (mkCaller i S) i true with
        | (scope1, Option.none) =>
          (scope1, Except.error (Err.mk "Undefined identifier." ""))
        | (scope1, Option.some value) =>
          match value.VerifyTypeIs .scopeType with
          | Option.some e => (scope1, Except.error e)
          | Option.none =>
            match value with
            | .scope source => runWithSource scope1 i source args
            | _ =>
              (scope1, Except.error (Err.mk "This value has the wrong type." ""))) = _
  have hG : Scope.GetMutableValue (mkCaller i S) i true
      = (.root [(i, .scope S, true)], Option.some (.scope S)) := by
    simp [Scope.GetMutableValue, Scope.GetValue, mkCaller, lookupDirect, markDirect]
  rw [hG]
  rfl

theorem runWithSource_list_excl (c1 : Scope) (ident : String) (source : Scope)
    (a0 n2 : ParseNode) (excl : List String) {scope3 : Scope} {l : List Value}
    (h2 : n2.Execute c1 = (scope3, Except.ok (.list l))) :
    runWithSource c1 ident source [a0, n2, .literal (.list (excl.map Value.str))]
      = runWithSource c1 ident source [a0, n2] := by
  unfold runWithSource
  have hexcl3 : evalExclusionsOpt c1 [a0, n2, .literal (.list (excl.map Value.str))]
      = (c1, Except.ok excl) := by
    simp [evalExclusionsOpt, evalExclusions, ParseNode.Execute, collectExclusions_map_str]
  have hexcl2 : evalExclusionsOpt c1 [a0, n2] = (c1, Except.ok []) := by
    simp [evalExclusionsOpt]
  rw [hexcl3, hexcl2]
  show (match n2.Execute c1 with
        | (s3, Except.error e) => (s3, Except.error e)
        | (s3, Except.ok what_value) => markStep s3 ident source excl what_value)
     = (match n2.Execute c1 with
        | (s3, Except.error e) => (s3, Except.error e)
        | (s3, Except.ok what_value) => markStep s3 ident source [] what_value)
  rw [h2]
  show (match MarkUsedFromList source l with
        | (source', Option.none) =>
          (scope3.setExistingValue ident (.scope source'), Except.ok Value.none)
        | (source', Option.some e) =>
          (scope3.setExistingValue ident (.scope source'), Except.error e))
     = (match MarkUsedFromList source l with
        | (source', Option.none) =>
          (scope3.setExistingValue ident (.scope source'), Except.ok Value.none)
        | (source', Option.some e) =>
          (scope3.setExistingValue ident (.scope source'), Except.error e))
  rfl

/-! ### Claim theorems -/

/-- C1, counterexample: the claim asserts that when argument 2 is a list
containing a non-string element no element of the list is marked used
("all-or-nothing").  At the concrete input below (source scope with one
unused binding `a`, argument 2 evaluating to `["a", 5]`) the call does
fail with the type-mismatch error, yet the element `a` before the
offending `5` HAS been marked used, refuting the all-or-nothing part. -/
theorem c1_counterexample :
    (RunMarkUsedFrom (.root [("invoker", .scope (.root [("a", .int 1, false)]), false)])
        [.identifier "invoker", .literal (.list [.str "a", .int 5])]).2
      = Except.error ⟨"This value has the wrong type.", ""⟩
    ∧ (storedScope (RunMarkUsedFrom
          (.root [("invoker", .scope (.root [("a", .int 1, false)]), false)])
          [.identifier "invoker", .literal (.list [.str "a", .int 5])]).1 "invoker").bind
        (fun S' => (lookupDirect S'.bindings "a").map Prod.snd)
      = Option.some true := ⟨rfl, rfl⟩

/-- C1, amended: if argument 2 evaluates to a list whose elements up to
the first non-string one are the strings `pre`, the call fails with a
type-mismatch error; the names in `pre` have been marked used exactly
as a run on `pre` alone would mark them, and the elements after the
offending one are never processed (the final source state is literally
the state after marking `pre`). -/
theorem c1_list_marking_stops_at_first_nonstring (i : String) (S : Scope)
    (pre : List String) (bad : Value) (post : List Value)
    (hbad : bad.typeOf ≠ .strType) :
    RunMarkUsedFrom (mkCaller i S)
        [.identifier i, .literal (.list (pre.map Value.str ++ bad :: post))]
      = (.root [(i, .scope (MarkUsedFromList S (pre.map Value.str)).1, true)],
         Except.error ⟨"This value has the wrong type.", ""⟩) := by
  rw [run_list, MarkUsedFromList_prefix_bad pre S post hbad]

/-- C2: when argument 2 evaluates to a list (list mode), a call carrying
a third argument that evaluates to a list of strings produces exactly
the same result (final caller scope, marking and return value) as the
same call without the third argument: the exclusion set is ignored in
list mode. -/
theorem c2_exclusions_ignored_in_list_mode (i : String) (S scope3 : Scope)
    (n2 : ParseNode) (excl : List String) (l : List Value)
    (h2 : n2.Execute (.root [(i, .scope S, true)]) = (scope3, Except.ok (.list l))) :
    RunMarkUsedFrom (mkCaller i S)
        [.identifier i, n2, .literal (.list (excl.map Value.str))]
      = RunMarkUsedFrom (mkCaller i S) [.identifier i, n2] := by
  rw [run_front i S [.identifier i, n2, .literal (.list (excl.map Value.str))] rfl
        (by simp),
      run_front i S [.identifier i, n2] rfl (by simp)]
  exact runWithSource_list_excl _ i S _ n2 excl h2

/-- C3: after the wildcard form runs against source scope `S` with
exclusion set `excl`, the direct bindings of the stored source scope
are those of `S` with the used flag of every name not in `excl` set to
true, and every name in `excl` keeping its prior value and flag
(stated as a lookup equation holding for every name `n`). -/
theorem c3_wildcard_marks_all_except_exclusions (i : String) (S : Scope)
    (excl : List String) (n : String) :
    (storedScope (RunMarkUsedFrom (mkCaller i S)
        [.identifier i, .literal (.str "*"),
         .literal (.list (excl.map Value.str))]).1 i).bind
      (fun S' => lookupDirect S'.bindings n)
      = (lookupDirect S.bindings n).map
          (fun r => (r.1, if n ∈ excl then r.2 else true)) := by
  rw [run_wildcard]
  rw [show ((Scope.root [(i, Value.scope (S.MarkAllUsed excl), true)],
        (Except.ok Value.none : Except Err Value)).1)
      = Scope.root [(i, Value.scope (S.MarkAllUsed excl), true)] from rfl]
  rw [storedScope_single]
  simp [MarkAllUsed_bindings, lookupDirect_markAll]

/-- C4: the wildcard form never changes any binding declared in the
target scope's parent chain: the stored source scope after the call has
literally the same parent (hence the same whole parent chain, bindings
and used flags included) as `S`, for every `S`, including scopes with
no direct bindings. -/
theorem c4_wildcard_preserves_parent_chain (i : String) (S : Scope)
    (excl : List String) :
    (storedScope (RunMarkUsedFrom (mkCaller i S)
        [.identifier i, .literal (.str "*"),
         .literal (.list (excl.map Value.str))]).1 i).map
      Scope.parentOpt = Option.some S.parentOpt := by
  rw [run_wildcard]
  rw [show ((Scope.root [(i, Value.scope (S.MarkAllUsed excl), true)],
        (Except.ok Value.none : Except Err Value)).1)
      = Scope.root [(i, Value.scope (S.MarkAllUsed excl), true)] from rfl]
  rw [storedScope_single]
  simp [MarkAllUsed_parentOpt]

/-- C5: for a child scope with direct bindings `bs` and parent `P`,
marking a name `n` bound only in `P` (not among `bs`) via the list form
reaches into the parent chain: the stored source scope after the call
is the child with `P` replaced by its marked version, in which the
binding `n` now carries `used = true` (with its value unchanged). -/
theorem c5_list_mode_walks_parent_chain (i n : String)
    (bs : List (String × Value × Bool)) (P : Scope) (v : Value) (u : Bool)
    (hC : lookupDirect bs n = Option.none)
    (hP : lookupDirect P.bindings n = Option.some (v, u)) :
    storedScope (RunMarkUsedFrom (mkCaller i (.child bs P))
        [.identifier i, .literal (.list [.str n])]).1 i
      = Option.some (.child bs (Scope.GetValue P n true).1)
    ∧ lookupDirect ((Scope.GetValue P n true).1).bindings n = Option.some (v, true) := by
  refine ⟨?_, GetValue_marks_direct hP⟩
  rw [run_list]
  have hM : MarkUsedFromList (.child bs P) [.str n]
      = (.child bs (Scope.GetValue P n true).1, Option.none) := by
    rw [MarkUsedFromList_cons,
        show (Value.str n).VerifyTypeIs .strType = Option.none from rfl]
    show MarkUsedFromList ((Scope.child bs P).GetValue n true).1 []
      = (Scope.child bs (Scope.GetValue P n true).1, Option.none)
    rw [GetValue_child_notdirect hC]
    rfl
  rw [hM]
  exact storedScope_single i (.child bs (Scope.GetValue P n true).1) true

/-- C6: invoking the list form with a name absent from the source scope
and its entire parent chain is a silent no-op: the call succeeds (no
error, the empty return value), and the stored source scope is exactly
the original `S` (the only caller-side change is the used flag on the
binding that held the scope, which identifier resolution reads). -/
theorem c6_missing_name_is_noop (i n : String) (S : Scope)
    (h : S.findInChain n = Option.none) :
    RunMarkUsedFrom (mkCaller i S) [.identifier i, .literal (.list [.str n])]
      = (.root [(i, .scope S, true)], Except.ok Value.none) := by
  rw [run_list]
  have hM : MarkUsedFromList S [.str n] = (S, Option.none) := by
    rw [MarkUsedFromList_cons,
        show (Value.str n).VerifyTypeIs .strType = Option.none from rfl]
    show MarkUsedFromList (S.GetValue n true).1 [] = (S, Option.none)
    rw [GetValue_notfound true h]
    rfl
  rw [hM]

/-- C7: the used flag is monotonic under the whole builtin: for every
caller scope and every argument list — wildcard form, list form, and
all error paths included — the scope after `RunMarkUsedFrom` relates to
the scope before by `usedMonoS`, which forces every binding (at every
level, scopes held inside values included) whose flag was true to still
be true. -/
theorem c7_used_flag_monotone (c : Scope) (args : List ParseNode) :
    usedMonoS c (RunMarkUsedFrom c args).1 :=
  run_usedMono c args

/-- C8: if argument 2 evaluates to a value that is neither the string
`"*"` nor a list — any other string such as `"all"`, a boolean, an
integer, the empty value, or even a scope — the call fails with the
type-mismatch error describing the expected shapes, and the stored
source scope is exactly the original `S`: none of its bindings has been
marked. -/
theorem c8_bad_second_arg_type_mismatch (i : String) (S : Scope) (v : Value)
    (hlist : v.typeOf ≠ ValueType.listType)
    (hstar : ∀ s, v = Value.str s → s ≠ "*") :
    RunMarkUsedFrom (mkCaller i S) [.identifier i, .literal v]
      = (.root [(i, .scope S, true)],
         Except.error ⟨"Not a valid list of variables to mark used.",
                       "Expecting either the string \"*\" or a list of strings."⟩) := by
  rw [run_front i S [.identifier i, .literal v] rfl (by simp)]
  unfold runWithSource
  have hexcl : evalExclusionsOpt (.root [(i, .scope S, true)]) [.identifier i, .literal v]
      = (.root [(i, .scope S, true)], Except.ok []) := by
    simp [evalExclusionsOpt]
  rw [hexcl]
  show markStep (.root [(i, .scope S, true)]) i S [] v
      = (.root [(i, .scope S, true)],
         Except.error ⟨"Not a valid list of variables to mark used.",
                       "Expecting either the string \"*\" or a list of strings."⟩)
  cases v with
  | list l => exact absurd rfl hlist
  | str s =>
    have hs : s ≠ "*" := hstar s rfl
    show (if s = "*" then
            ((Scope.root [(i, Value.scope S, true)]).setExistingValue i
               (.scope (MarkUsedAllValues S [])), Except.ok Value.none)
          else
            (Scope.root [(i, Value.scope S, true)],
             Except.error (Err.mk "Not a valid list of variables to mark used."
               "Expecting either the string \"*\" or a list of strings.")))
       = (Scope.root [(i, Value.scope S, true)],
          Except.error (Err.mk "Not a valid list of variables to mark used."
            "Expecting either the string \"*\" or a list of strings."))
    rw [if_neg hs]
  | none => rfl
  | boolean b => rfl
  | int k => rfl
  | scope s2 => rfl

/-- C9: the third argument is evaluated and validated before argument 2
is even looked at, and any failure of that step (evaluation error,
non-list value, non-string element — all surfaced as an error by
`evalExclusions`) terminates the call with exactly that error, for
EVERY second argument `n2`, valid or not; the stored source scope in
the resulting caller scope is still the untouched `S`, so no binding
has been marked. -/
theorem c9_exclusion_failure_preempts_arg2 (i : String) (S scope2 : Scope)
    (n2 n3 : ParseNode) (e : Err)
    (h3 : evalExclusions (.root [(i, .scope S, true)]) n3 = (scope2, Except.error e)) :
    RunMarkUsedFrom (mkCaller i S) [.identifier i, n2, n3] = (scope2, Except.error e)
    ∧ valueInChain scope2 i = Option.some (.scope S) := by
  constructor
  · rw [run_front i S [.identifier i, n2, n3] rfl (by simp)]
    unfold runWithSource
    have hopt : evalExclusionsOpt (.root [(i, .scope S, true)]) [.identifier i, n2, n3]
        = (scope2, Except.error e) := by
      show evalExclusions (.root [(i, .scope S, true)]) n3 = (scope2, Except.error e)
      exact h3
    rw [hopt]
  · have hpres := valueInChain_evalExclusions (.root [(i, .scope S, true)]) n3 i
    rw [h3] at hpres
    rw [show ((scope2, (Except.error e : Except Err (List String))).1) = scope2
          from rfl] at hpres
    rw [hpres]
    simp [valueInChain, Scope.findInChain, lookupDirect]

/-- C10: resolving the first argument is itself a read: on any call
whose first argument is the identifier holding the source scope (e.g.
`invoker`) and whose argument count passes the arity check, the
caller's binding holding that scope ends with `used = true`, whatever
the remaining arguments do — including calls that subsequently fail. -/
theorem c10_identifier_resolution_marks_scope_binding (i : String) (S : Scope)
    (rest : List ParseNode) (hlen : rest.length = 1 ∨ rest.length = 2) :
    directUsed (RunMarkUsedFrom (mkCaller i S) (.identifier i :: rest)).1 i
      = Option.some true := by
  rw [run_front i S (.identifier i :: rest) rfl
        (by rcases hlen with h | h <;> simp [h])]
  exact directUsed_runWithSource i S (.identifier i :: rest)
    (by simp [directUsed, Scope.bindings, lookupDirect])

/-! ### Witnesses: each hypothesis-bearing claim theorem applied at a
concrete input -/

/-- Witness for C1's amended theorem at the list `["a", 5, "b"]`. -/
theorem c1_witness :
    (Value.int 5).typeOf ≠ ValueType.strType
    ∧ RunMarkUsedFrom
        (mkCaller "invoker" (.root [("a", .int 1, false), ("b", .int 2, false)]))
        [.identifier "invoker",
         .literal (.list (["a"].map Value.str ++ Value.int 5 :: [Value.str "b"]))]
      = (.root [("invoker",
           .scope (MarkUsedFromList (.root [("a", .int 1, false), ("b", .int 2, false)])
             (["a"].map Value.str)).1, true)],
         Except.error ⟨"This value has the wrong type.", ""⟩) :=
  ⟨by decide,
   c1_list_marking_stops_at_first_nonstring "invoker"
     (.root [("a", .int 1, false), ("b", .int 2, false)]) ["a"] (Value.int 5)
     [Value.str "b"] (by decide)⟩

/-- Witness for C2 at a literal list second argument and exclusion
list `["b"]`. -/
theorem c2_witness :
    (ParseNode.literal (.list [.str "a"])).Execute
        (.root [("invoker", .scope (.root [("a", .int 1, false)]), true)])
      = (.root [("invoker", .scope (.root [("a", .int 1, false)]), true)],
         Except.ok (.list [.str "a"]))
    ∧ RunMarkUsedFrom (mkCaller "invoker" (.root [("a", .int 1, false)]))
        [.identifier "invoker", .literal (.list [.str "a"]),
         .literal (.list (["b"].map Value.str))]
      = RunMarkUsedFrom (mkCaller "invoker" (.root [("a", .int 1, false)]))
        [.identifier "invoker", .literal (.list [.str "a"])] :=
  ⟨rfl,
   c2_exclusions_ignored_in_list_mode "invoker" (.root [("a", .int 1, false)])
     (.root [("invoker", .scope (.root [("a", .int 1, false)]), true)])
     (.literal (.list [.str "a"])) ["b"] [.str "a"] rfl⟩

/-- Witness for C5: empty child scope, parent holding `x` unused. -/
theorem c5_witness :
    lookupDirect ([] : List (String × Value × Bool)) "x" = Option.none
    ∧ lookupDirect (Scope.root [("x", .int 9, false)]).bindings "x"
        = Option.some (.int 9, false)
    ∧ (storedScope (RunMarkUsedFrom
          (mkCaller "invoker" (.child [] (.root [("x", .int 9, false)])))
          [.identifier "invoker", .literal (.list [.str "x"])]).1 "invoker"
        = Option.some (.child []
            (Scope.GetValue (.root [("x", .int 9, false)]) "x" true).1)
       ∧ lookupDirect ((Scope.GetValue (.root [("x", .int 9, false)]) "x" true).1).bindings
           "x" = Option.some (.int 9, true)) :=
  ⟨rfl, rfl,
   c5_list_mode_walks_parent_chain "invoker" "x" [] (.root [("x", .int 9, false)])
     (.int 9) false rfl rfl⟩

/-- Witness for C6: the name `z` is bound nowhere in the chain. -/
theorem c6_witness :
    (Scope.root [("a", .int 1, false)]).findInChain "z" = Option.none
    ∧ RunMarkUsedFrom (mkCaller "invoker" (.root [("a", .int 1, false)]))
        [.identifier "invoker", .literal (.list [.str "z"])]
      = (.root [("invoker", .scope (.root [("a", .int 1, false)]), true)],
         Except.ok Value.none) :=
  ⟨rfl,
   c6_missing_name_is_noop "invoker" "z" (.root [("a", .int 1, false)]) rfl⟩

/-- Witness for C8 at the string `"all"` (the spec's own example 4). -/
theorem c8_witness :
    (Value.str "all").typeOf ≠ ValueType.listType
    ∧ (∀ s, Value.str "all" = Value.str s → s ≠ "*")
    ∧ RunMarkUsedFrom (mkCaller "invoker" (.root [("a", .int 1, false)]))
        [.identifier "invoker", .literal (.str "all")]
      = (.root [("invoker", .scope (.root [("a", .int 1, false)]), true)],
         Except.error ⟨"Not a valid list of variables to mark used.",
                       "Expecting either the string \"*\" or a list of strings."⟩) :=
  ⟨by decide,
   by
     intro s hv
     injection hv with h
     subst h
     decide,
   c8_bad_second_arg_type_mismatch "invoker" (.root [("a", .int 1, false)])
     (.str "all") (by decide)
     (by
       intro s hv
       injection hv with h
       subst h
       decide)⟩

/-- Witness for C9: a failing exclusion expression beats a valid
wildcard second argument. -/
theorem c9_witness :
    evalExclusions (.root [("invoker", .scope (.root [("a", .int 1, false)]), true)])
        (.failing ⟨"boom", ""⟩)
      = (.root [("invoker", .scope (.root [("a", .int 1, false)]), true)],
         Except.error ⟨"boom", ""⟩)
    ∧ (RunMarkUsedFrom (mkCaller "invoker" (.root [("a", .int 1, false)]))
          [.identifier "invoker", .literal (.str "*"), .failing ⟨"boom", ""⟩]
        = (.root [("invoker", .scope (.root [("a", .int 1, false)]), true)],
           Except.error ⟨"boom", ""⟩)
       ∧ valueInChain (.root [("invoker", .scope (.root [("a", .int 1, false)]), true)])
           "invoker" = Option.some (.scope (.root [("a", .int 1, false)]))) :=
  ⟨rfl,
   c9_exclusion_failure_preempts_arg2 "invoker" (.root [("a", .int 1, false)])
     (.root [("invoker", .scope (.root [("a", .int 1, false)]), true)])
     (.literal (.str "*")) (.failing ⟨"boom", ""⟩) ⟨"boom", ""⟩ rfl⟩

/-- Witness for C10 on a call that even fails afterwards (second
argument is the invalid string `"all"`). -/
theorem c10_witness :
    ([ParseNode.literal (.str "all")].length = 1
      ∨ [ParseNode.literal (.str "all")].length = 2)
    ∧ directUsed (RunMarkUsedFrom (mkCaller "invoker" (.root [("a", .int 1, false)]))
        (.identifier "invoker" :: [.literal (.str "all")])).1 "invoker"
      = Option.some true :=
  ⟨Or.inl rfl,
   c10_identifier_resolution_marks_scope_binding "invoker"
     (.root [("a", .int 1, false)]) [.literal (.str "all")] (Or.inl rfl)⟩

end GN
